import Mathlib

/-!
Verification of the CUDA deinterlacer plugin (`src/cuda_deint_precise.cu`).

The development shallowly embeds the plugin's core logic:

* `VSVideoInfo` / `CudaDeintData` mirror the fields of the host structs the
  plugin reads and writes.
* `cudaDeintCreate` embeds the constructor: parameter lookup with defaults,
  the error path for a missing `clip`, and the descriptor doubling for
  double-rate mode.
* `srcN` and `useTopFlag` embed the source-index / field-choice computation
  performed in `cudaDeintGetFrame` (lines 95-111 of the source).
* `deintKernel` embeds the per-pixel body of the `__global__` kernel
  (lines 21-57): plane buffers are modelled as functions from byte offsets
  to sample values, and the result is the value written at `(x, y)`
  (`none` when the thread returns without writing).
* `accessedOffsets` lists, for one pixel, every buffer offset the kernel
  touches (the destination write first, then the source reads), mirroring
  the kernel's control flow exactly; it supports the memory-safety claim.
-/

/-- Fields of the VapourSynth `VSVideoInfo` that the plugin copies and,
for double-rate mode, rewrites: frame rate numerator/denominator, total
frame count, geometry and plane count. -/
structure VSVideoInfo where
  fpsNum : Nat
  fpsDen : Nat
  numFrames : Nat
  width : Nat
  height : Nat
  numPlanes : Nat
deriving Repr, DecidableEq

/-- The plugin's instance data (`CudaDeintData` in the source): the derived
video info plus the two configuration integers, stored exactly as the
constructor leaves them. The upstream node handle is not modelled. -/
structure CudaDeintData where
  vi : VSVideoInfo
  tff : Int
  mode : Int
deriving Repr, DecidableEq

/-- Embedding of `cudaDeintCreate` (source lines 143-173).  `clip` is
`none` when the required parameter is absent, in which case the function
fails with the exact error message the code sets.  `modeArg`/`tffArg` are
`none` when the optional integers are absent; the code then defaults them
to `0` and `1`.  When the effective mode is `0` the copied video info has
its `fpsNum` and `numFrames` doubled. -/
def cudaDeintCreate (clip : Option VSVideoInfo) (modeArg tffArg : Option Int) :
    Except String CudaDeintData :=
  match clip with
  | none => Except.error "CudaDeinterlacer: clip is required."
  | some srcVi =>
      let tff := tffArg.getD 1
      let mode := modeArg.getD 0
      let vi :=
        if mode = 0 then
          { srcVi with fpsNum := srcVi.fpsNum * 2, numFrames := srcVi.numFrames * 2 }
        else srcVi
      Except.ok { vi := vi, tff := tff, mode := mode }

/-- Source frame index fetched for output frame `n`
(`int srcN = (d->mode == 0) ? n / 2 : n;`, source lines 96 and 102). -/
def srcN (mode : Int) (n : Nat) : Nat :=
  if mode = 0 then n / 2 else n

/-- The `useTop` flag passed to the kernel (source lines 109-111):
`(d->mode == 0) ? ((n % 2 == 0) == (d->tff == 1)) : (d->tff == 1)`. -/
def useTopFlag (mode tff : Int) (n : Nat) : Bool :=
  if mode = 0 then decide ((n % 2 = 0) ↔ tff = 1) else decide (tff = 1)

/-- The kernel's missing-row test (source line 29):
`bool missing = (useTop ? (y % 2 == 1) : (y % 2 == 0));`. -/
def rowMissing (useTop : Bool) (y : Nat) : Bool :=
  if useTop then decide (y % 2 = 1) else decide (y % 2 = 0)

/-- The kernel's row clamp (source lines 39-41): `yy = y + dy`, then
`if (yy < 0) yy = 0; if (yy >= h) yy = h - 1;` applied in that order. -/
def clampY (yy : Int) (h : Nat) : Nat :=
  if (h : Int) ≤ (if yy < 0 then 0 else yy) then h - 1
  else (if yy < 0 then 0 else yy).toNat

/-- The vertical tap offsets of the luma loop
(`for (int dy = -3; dy <= 3; dy += 2)`, source line 38). -/
def lumaTaps : List Int := [-3, -1, 1, 3]

/-- Per-tap weight (source line 42): `(abs(dy) == 1) ? 4 : 1`. -/
def tapWeight (dy : Int) : Nat :=
  if dy.natAbs = 1 then 4 else 1

/-- The accumulated luma `sum` of the loop at source lines 37-45. -/
def lumaSum (src : Nat → Nat) (stride x y h : Nat) : Nat :=
  (lumaTaps.map (fun dy => src (clampY ((y : Int) + dy) h * stride + x) * tapWeight dy)).sum

/-- The accumulated `weight` of the same loop. -/
def lumaWeight : Nat :=
  (lumaTaps.map tapWeight).sum

/-- Per-pixel embedding of `deintKernel` (source lines 21-57).  `src` maps
byte offsets of the source plane to sample values; the result is the value
the thread at `(x, y)` stores at `dst[y * stride + x]`, or `none` when the
thread exits at the bounds check `if (x >= w || y >= h) return;`. -/
def deintKernel (src : Nat → Nat) (w h stride : Nat) (useTop isChroma : Bool)
    (x y : Nat) : Option Nat :=
  if w ≤ x ∨ h ≤ y then none
  else if ¬ rowMissing useTop y then
    some (src (y * stride + x))
  else if ¬ isChroma then
    some ((lumaSum src stride x y h + lumaWeight / 2) / lumaWeight)
  else
    let y0 := if 0 < y then y - 1 else 0
    let y1 := if y + 1 < h then y + 1 else h - 1
    some ((src (y0 * stride + x) + src (y1 * stride + x) + 1) / 2)

/-- Every buffer offset the kernel thread at `(x, y)` touches, mirroring
the control flow of `deintKernel`: the destination write offset first,
followed by the source read offsets of the branch taken; `[]` when the
thread exits at the bounds check. -/
def accessedOffsets (w h stride : Nat) (useTop isChroma : Bool)
    (x y : Nat) : List Nat :=
  if w ≤ x ∨ h ≤ y then []
  else if ¬ rowMissing useTop y then
    [y * stride + x, y * stride + x]
  else if ¬ isChroma then
    (y * stride + x) :: lumaTaps.map (fun dy => clampY ((y : Int) + dy) h * stride + x)
  else
    let y0 := if 0 < y then y - 1 else 0
    let y1 := if y + 1 < h then y + 1 else h - 1
    [y * stride + x, y0 * stride + x, y1 * stride + x]

/-- Row clamp as the specification words it: the row index is
`min(max(t, 0), height - 1)`. -/
def specClamp (t : Int) (h : Nat) : Nat :=
  (min (max t 0) ((h : Int) - 1)).toNat

theorem lumaWeight_eq_ten : lumaWeight = 10 := by
  decide

theorem clampY_eq_specClamp (t : Int) (h : Nat) (hh : 1 ≤ h) :
    clampY t h = specClamp t h := by
  unfold clampY specClamp
  split_ifs <;> omega

theorem rowMissing_not (u : Bool) (y : Nat) :
    rowMissing (! u) y = ! rowMissing u y := by
  rcases Nat.mod_two_eq_zero_or_one y with h | h <;>
    cases u <;> simp [rowMissing, h]

theorem rowMissing_true_iff (u : Bool) :
    (∀ y, rowMissing u y = decide (y % 2 = 1)) ↔ u = true := by
  constructor
  · intro hall
    have h1 := hall 1
    cases u <;> simp [rowMissing] at h1 ⊢
  · intro hu y
    simp [rowMissing, hu]

theorem rowMissing_false_iff (u : Bool) :
    (∀ y, rowMissing u y = decide (y % 2 = 0)) ↔ u = false := by
  constructor
  · intro hall
    have h1 := hall 1
    cases u <;> simp [rowMissing] at h1 ⊢
  · intro hu y
    simp [rowMissing, hu]

/-- Claim C1: in double-rate mode (`mode = 0`) the resolver fetches source
frame `⌊n / 2⌋` for output frame `n`; the two outputs `2k` and `2k+1`
derived from one source frame use opposite missing parities; and the
missing parity is the bottom (odd) rows exactly when
`(n mod 2 = 0) = (field order = top-first)`. -/
theorem claim_C1 (tff : Int) (n k : Nat) :
    srcN 0 n = n / 2
    ∧ srcN 0 (2 * k) = srcN 0 (2 * k + 1)
    ∧ (∀ y, rowMissing (useTopFlag 0 tff (2 * k)) y
          = ! rowMissing (useTopFlag 0 tff (2 * k + 1)) y)
    ∧ ((∀ y, rowMissing (useTopFlag 0 tff n) y = decide (y % 2 = 1))
          ↔ ((n % 2 = 0) ↔ tff = 1)) := by
  have hflip : useTopFlag 0 tff (2 * k) = ! useTopFlag 0 tff (2 * k + 1) := by
    have h1 : (2 * k) % 2 = 0 := by omega
    have h2 : ¬ (2 * k + 1) % 2 = 0 := by omega
    by_cases ht : tff = 1 <;> simp [useTopFlag, h1, h2, ht]
  refine ⟨rfl, ?_, ?_, ?_⟩
  · show (2 * k) / 2 = (2 * k + 1) / 2
    omega
  · intro y
    rw [hflip, rowMissing_not]
  · rw [rowMissing_true_iff]
    by_cases hn : n % 2 = 0 <;> by_cases ht : tff = 1 <;>
      simp [useTopFlag, hn, ht]

/-- Claim C3: in single-rate mode (`mode = 1`) the resolver fetches source
frame `n` for output frame `n`; the missing parity is independent of `n`;
odd rows are missing exactly when the field order is top-first
(`tff = 1`), and even rows exactly otherwise. -/
theorem claim_C3 (tff : Int) (n : Nat) :
    srcN 1 n = n
    ∧ useTopFlag 1 tff n = useTopFlag 1 tff 0
    ∧ ((∀ y, rowMissing (useTopFlag 1 tff n) y = decide (y % 2 = 1)) ↔ tff = 1)
    ∧ ((∀ y, rowMissing (useTopFlag 1 tff n) y = decide (y % 2 = 0)) ↔ ¬ tff = 1) := by
  refine ⟨by simp [srcN], rfl, ?_, ?_⟩
  · rw [rowMissing_true_iff]
    by_cases ht : tff = 1 <;> simp [useTopFlag, ht]
  · rw [rowMissing_false_iff]
    by_cases ht : tff = 1 <;> simp [useTopFlag, ht]

/-- Concrete 4x4 sample plane used to instantiate the kernel theorems. -/
def srcW : Nat → Nat := fun i => (i * 37 + 11) % 256

/-- Claim C2: for every missing luma row `y` and column `x < w`, the kernel
writes `(sum + 5) / 10`, where `sum` weights the rows at vertical offsets
`-3, -1, +1, +3` (each clamped independently to `[0, h-1]`) by `1, 4, 4, 1`;
clamped-together rows each keep their full weight and the divisor stays 10. -/
theorem claim_C2 (src : Nat → Nat) (w h stride x y : Nat) (u : Bool)
    (hx : x < w) (hy : y < h) (hm : rowMissing u y = true) :
    deintKernel src w h stride u false x y
      = some ((4 * src (specClamp ((y : Int) - 1) h * stride + x)
             + 4 * src (specClamp ((y : Int) + 1) h * stride + x)
             + src (specClamp ((y : Int) - 3) h * stride + x)
             + src (specClamp ((y : Int) + 3) h * stride + x) + 5) / 10) := by
  have hh : 1 ≤ h := by omega
  have hcl : ∀ t : Int, clampY t h = specClamp t h :=
    fun t => clampY_eq_specClamp t h hh
  rw [deintKernel, if_neg (by omega), if_neg (by simp [hm])]
  rw [if_pos (by simp)]
  rw [lumaWeight_eq_ten]
  unfold lumaSum lumaTaps
  simp only [List.map_cons, List.map_nil, List.sum_cons, List.sum_nil, hcl]
  norm_num [tapWeight]
  ring_nf

/-- Claim C2 witness at the concrete plane `srcW`, `w = h = stride = 4`,
`x = 1`, `y = 1`, top field kept. -/
theorem claim_C2_witness :
    (1 : Nat) < 4 ∧ rowMissing true 1 = true
    ∧ deintKernel srcW 4 4 4 true false 1 1
      = some ((4 * srcW (specClamp ((1 : Int) - 1) 4 * 4 + 1)
             + 4 * srcW (specClamp ((1 : Int) + 1) 4 * 4 + 1)
             + srcW (specClamp ((1 : Int) - 3) 4 * 4 + 1)
             + srcW (specClamp ((1 : Int) + 3) 4 * 4 + 1) + 5) / 10) :=
  ⟨by decide, by decide,
    claim_C2 srcW 4 4 4 1 1 true (by decide) (by decide) (by decide)⟩

/-- Claim C4: for every present row (parity differs from the missing
parity) and column `x < w`, the kernel copies the source sample unchanged:
`dst[y, x] = src[y, x]`. -/
theorem claim_C4 (src : Nat → Nat) (w h stride x y : Nat) (u c : Bool)
    (hx : x < w) (hy : y < h) (hm : rowMissing u y = false) :
    deintKernel src w h stride u c x y = some (src (y * stride + x)) := by
  rw [deintKernel, if_neg (by omega), if_pos (by simp [hm])]

/-- Claim C4 witness: row 0 is a kept row when the top field is kept. -/
theorem claim_C4_witness :
    (2 : Nat) < 4 ∧ rowMissing true 0 = false
    ∧ deintKernel srcW 4 4 4 true false 2 0 = some (srcW (0 * 4 + 2)) :=
  ⟨by decide, by decide,
    claim_C4 srcW 4 4 4 2 0 true false (by decide) (by decide) (by decide)⟩

/-- Claim C5: for every missing chroma row `y` and column `x < w`, the
kernel writes `(v0 + v1 + 1) / 2` with `v0 = src[max(y-1, 0), x]` and
`v1 = src[min(y+1, h-1), x]`, each row clamped independently. -/
theorem claim_C5 (src : Nat → Nat) (w h stride x y : Nat) (u : Bool)
    (hx : x < w) (hy : y < h) (hm : rowMissing u y = true) :
    deintKernel src w h stride u true x y
      = some ((src ((max ((y : Int) - 1) 0).toNat * stride + x)
             + src ((min (y + 1) (h - 1)) * stride + x) + 1) / 2) := by
  rw [deintKernel, if_neg (by omega), if_neg (by simp [hm]), if_neg (by simp)]
  have e0 : (if 0 < y then y - 1 else 0) = (max ((y : Int) - 1) 0).toNat := by
    split <;> omega
  have e1 : (if y + 1 < h then y + 1 else h - 1) = min (y + 1) (h - 1) := by
    split <;> omega
  rw [e0, e1]

/-- Claim C5 witness: chroma interpolation at row 1 of the concrete plane. -/
theorem claim_C5_witness :
    (3 : Nat) < 4 ∧ rowMissing true 1 = true
    ∧ deintKernel srcW 4 4 4 true true 3 1
      = some ((srcW ((max ((1 : Int) - 1) 0).toNat * 4 + 3)
             + srcW ((min (1 + 1) (4 - 1)) * 4 + 3) + 1) / 2) :=
  ⟨by decide, by decide,
    claim_C5 srcW 4 4 4 3 1 true (by decide) (by decide) (by decide)⟩

theorem clampY_lt (t : Int) (h : Nat) (hh : 1 ≤ h) : clampY t h < h := by
  unfold clampY
  split_ifs <;> omega

theorem rowOffset_lt (r x w stride h : Nat)
    (hr : r < h) (hx : x < w) (hw : w ≤ stride) :
    r * stride + x < stride * h := by
  have h1 : r * stride + x < (r + 1) * stride := by
    have : x < stride := lt_of_lt_of_le hx hw
    calc r * stride + x < r * stride + stride := by omega
    _ = (r + 1) * stride := by ring
  have h2 : (r + 1) * stride ≤ h * stride := Nat.mul_le_mul_right stride hr
  calc r * stride + x < (r + 1) * stride := h1
  _ ≤ h * stride := h2
  _ = stride * h := Nat.mul_comm h stride

/-- Claim C6: a thread whose coordinates are out of range writes nothing
and touches no buffer offset; for an in-range pixel, with `w ≤ stride`,
every offset the kernel reads or writes is inside `[0, stride * h)` —
every interpolation row index having been clamped into `[0, h-1]` first —
so no out-of-bounds access occurs, including at rows `0` and `h - 1`. -/
theorem claim_C6 (src : Nat → Nat) (w h stride x y : Nat) (u c : Bool)
    (hw : w ≤ stride) :
    (w ≤ x ∨ h ≤ y →
        deintKernel src w h stride u c x y = none
        ∧ accessedOffsets w h stride u c x y = [])
    ∧ (x < w → y < h →
        ∀ o ∈ accessedOffsets w h stride u c x y, o < stride * h) := by
  constructor
  · intro hout
    rw [deintKernel, if_pos hout, accessedOffsets, if_pos hout]
    exact ⟨rfl, rfl⟩
  · intro hx hy o ho
    have hh : 1 ≤ h := by omega
    have hbound : ∀ r, r < h → r * stride + x < stride * h :=
      fun r hr => rowOffset_lt r x w stride h hr hx hw
    rw [accessedOffsets, if_neg (by omega)] at ho
    by_cases hm : rowMissing u y = true
    · rw [if_neg (by simp [hm])] at ho
      by_cases hc : c = true
      · rw [if_neg (by simp [hc])] at ho
        simp only [List.mem_cons, List.not_mem_nil, or_false] at ho
        rcases ho with ho | ho | ho
        · exact ho ▸ hbound y hy
        · refine ho ▸ hbound _ ?_
          split <;> omega
        · refine ho ▸ hbound _ ?_
          split <;> omega
      · rw [if_pos (by simp [hc])] at ho
        rcases List.mem_cons.mp ho with ho | ho
        · exact ho ▸ hbound y hy
        · rcases List.mem_map.mp ho with ⟨dy, _, hdy⟩
          exact hdy ▸ hbound _ (clampY_lt _ h hh)
    · rw [if_pos (by simp [hm])] at ho
      simp only [List.mem_cons, List.not_mem_nil, or_false] at ho
      rcases ho with ho | ho <;> exact ho ▸ hbound y hy

/-- Claim C6 witness: at the bottom edge pixel `(1, 3)` of a 4x4 plane the
luma taps reach past both edges yet the offset `13` the kernel writes is
in bounds. -/
theorem claim_C6_witness :
    (4 : Nat) ≤ 4
    ∧ 13 ∈ accessedOffsets 4 4 4 true false 1 3
    ∧ (13 : Nat) < 4 * 4 :=
  ⟨by decide, by decide,
    (claim_C6 srcW 4 4 4 1 3 true false (by decide)).2 (by decide) (by decide)
      13 (by decide)⟩

/-- Concrete all-white plane: every sample is 255. -/
def src255 : Nat → Nat := fun _ => 255

/-- Claim C7: with all source samples in `[0, 255]`, the luma accumulator
`sum + weight/2` never exceeds `2555`, which is far below `2^31` (so a
32-bit signed accumulator cannot overflow), and whatever value the kernel
writes — copied, luma-interpolated, or chroma-interpolated — lies in
`[0, 255]`, so the 8-bit store loses nothing. -/
theorem claim_C7 (src : Nat → Nat) (hsrc : ∀ i, src i ≤ 255)
    (w h stride x y : Nat) (u c : Bool) :
    lumaSum src stride x y h + lumaWeight / 2 ≤ 2555
    ∧ lumaSum src stride x y h + lumaWeight / 2 < 2 ^ 31
    ∧ (deintKernel src w h stride u c x y).getD 0 ≤ 255 := by
  have hsum : lumaSum src stride x y h ≤ 2550 := by
    unfold lumaSum lumaTaps
    simp only [List.map_cons, List.map_nil, List.sum_cons, List.sum_nil]
    have b1 := hsrc (clampY ((y : Int) + -3) h * stride + x)
    have b2 := hsrc (clampY ((y : Int) + -1) h * stride + x)
    have b3 := hsrc (clampY ((y : Int) + 1) h * stride + x)
    have b4 := hsrc (clampY ((y : Int) + 3) h * stride + x)
    norm_num [tapWeight]
    omega
  have hw10 : lumaWeight = 10 := lumaWeight_eq_ten
  refine ⟨by omega, by omega, ?_⟩
  rw [deintKernel]
  by_cases hout : w ≤ x ∨ h ≤ y
  · rw [if_pos hout]
    simp
  · rw [if_neg hout]
    by_cases hm : rowMissing u y = true
    · rw [if_neg (by simp [hm])]
      by_cases hc : c = true
      · rw [if_neg (by simp [hc])]
        dsimp only
        simp only [Option.getD_some]
        have b1 := hsrc ((if 0 < y then y - 1 else 0) * stride + x)
        have b2 := hsrc ((if y + 1 < h then y + 1 else h - 1) * stride + x)
        omega
      · rw [if_pos (by simp [hc])]
        simp only [Option.getD_some, hw10]
        omega
    · rw [if_pos (by simp [hm])]
      simpa using hsrc (y * stride + x)

/-- Claim C7 witness at the all-white plane: the accumulator peaks at 2555
and the stored value stays at 255. -/
theorem claim_C7_witness :
    lumaSum src255 4 1 1 4 + lumaWeight / 2 ≤ 2555
    ∧ lumaSum src255 4 1 1 4 + lumaWeight / 2 < 2 ^ 31
    ∧ (deintKernel src255 4 4 4 true false 1 1).getD 0 ≤ 255 :=
  claim_C7 src255 (fun _ => Nat.le_refl 255) 4 4 4 1 1 true false

/-- Claim C8: the published descriptor is a copy of the upstream one except
that, when the effective mode is `0`, `fpsNum` and `numFrames` are each
doubled; for any other mode every field is published unchanged. -/
theorem claim_C8 (srcVi : VSVideoInfo) (modeArg tffArg : Option Int)
    (d : CudaDeintData)
    (hd : cudaDeintCreate (some srcVi) modeArg tffArg = Except.ok d) :
    (d.mode = 0 →
        d.vi.fpsNum = srcVi.fpsNum * 2 ∧ d.vi.numFrames = srcVi.numFrames * 2
        ∧ d.vi.fpsDen = srcVi.fpsDen ∧ d.vi.width = srcVi.width
        ∧ d.vi.height = srcVi.height ∧ d.vi.numPlanes = srcVi.numPlanes)
    ∧ (d.mode ≠ 0 → d.vi = srcVi) := by
  rw [cudaDeintCreate] at hd
  have hd' := Except.ok.inj hd
  subst hd'
  by_cases hm : modeArg.getD 0 = 0 <;> simp [hm]

/-- Claim C8 witness (the spec's scenario): `mode = 0` over a source with
`frame_count = 100`, `fps_num = 24` publishes `frame_count = 200`,
`fps_num = 48`. -/
theorem claim_C8_witness :
    cudaDeintCreate (some ⟨24, 1, 100, 640, 480, 3⟩) (some 0) none
      = Except.ok ⟨⟨48, 1, 200, 640, 480, 3⟩, 1, 0⟩
    ∧ (⟨⟨48, 1, 200, 640, 480, 3⟩, 1, 0⟩ : CudaDeintData).vi.fpsNum = 24 * 2
    ∧ (⟨⟨48, 1, 200, 640, 480, 3⟩, 1, 0⟩ : CudaDeintData).vi.numFrames = 100 * 2 :=
  ⟨rfl,
    ((claim_C8 ⟨24, 1, 100, 640, 480, 3⟩ (some 0) none
        ⟨⟨48, 1, 200, 640, 480, 3⟩, 1, 0⟩ rfl).1 rfl).1,
    ((claim_C8 ⟨24, 1, 100, 640, 480, 3⟩ (some 0) none
        ⟨⟨48, 1, 200, 640, 480, 3⟩, 1, 0⟩ rfl).1 rfl).2.1⟩

/-- Claim C9 counterexample: construction accepts `mode = 2` and `tff = 5`
without rejection or normalization, so the constructed instance violates
`mode ∈ {0, 1}` and `field_order ∈ {0, 1}`. -/
theorem claim_C9_counterexample :
    ((cudaDeintCreate (some ⟨24, 1, 100, 640, 480, 3⟩) (some 2) (some 5)).toOption.map
        (fun d => (d.mode, d.tff))) = some (2, 5)
    ∧ ¬ ((2 : Int) = 0 ∨ (2 : Int) = 1)
    ∧ ¬ ((5 : Int) = 0 ∨ (5 : Int) = 1) := by
  refine ⟨by decide, by decide, by decide⟩

/-- Claim C9, amended: construction stores the supplied `mode` and `tff`
integers exactly as given, with no rejection or normalization; when a
parameter is absent it defaults to `mode = 0` / `tff = 1`, which do lie in
`{0, 1}`.  The invariant `mode ∈ {0,1}`, `field_order ∈ {0,1}` therefore
holds exactly when the caller supplies values in those sets (or omits
them); the fields are never changed after construction. -/
theorem claim_C9 (srcVi : VSVideoInfo) (modeArg tffArg : Option Int)
    (d : CudaDeintData)
    (hd : cudaDeintCreate (some srcVi) modeArg tffArg = Except.ok d) :
    d.mode = modeArg.getD 0 ∧ d.tff = tffArg.getD 1
    ∧ (modeArg = none → d.mode = 0)
    ∧ (tffArg = none → d.tff = 1)
    ∧ ((d.mode = 0 ∨ d.mode = 1) ↔ (modeArg.getD 0 = 0 ∨ modeArg.getD 0 = 1)) := by
  rw [cudaDeintCreate] at hd
  have hd' := Except.ok.inj hd
  subst hd'
  refine ⟨rfl, rfl, ?_, ?_, Iff.rfl⟩
  · intro hma
    simp [hma]
  · intro hta
    simp [hta]

/-- Claim C9 witness: defaults apply when both optional parameters are
absent, and the stored fields are then in range. -/
theorem claim_C9_witness :
    (⟨⟨48, 2, 200, 640, 480, 3⟩, 1, 0⟩ : CudaDeintData).mode = (none : Option Int).getD 0
    ∧ (⟨⟨48, 2, 200, 640, 480, 3⟩, 1, 0⟩ : CudaDeintData).tff = (none : Option Int).getD 1
    ∧ ((none : Option Int) = none → (⟨⟨48, 2, 200, 640, 480, 3⟩, 1, 0⟩ : CudaDeintData).mode = 0)
    ∧ ((none : Option Int) = none → (⟨⟨48, 2, 200, 640, 480, 3⟩, 1, 0⟩ : CudaDeintData).tff = 1)
    ∧ (((⟨⟨48, 2, 200, 640, 480, 3⟩, 1, 0⟩ : CudaDeintData).mode = 0
          ∨ (⟨⟨48, 2, 200, 640, 480, 3⟩, 1, 0⟩ : CudaDeintData).mode = 1)
        ↔ ((none : Option Int).getD 0 = 0 ∨ (none : Option Int).getD 0 = 1)) :=
  claim_C9 ⟨24, 2, 100, 640, 480, 3⟩ none none
    ⟨⟨48, 2, 200, 640, 480, 3⟩, 1, 0⟩ rfl

/-- Claim C10: constructing without the required `clip` fails with the
descriptive error message and produces no instance (hence no frame is ever
processed); with `clip` present and the optional parameters absent, a
filter instance is created with the defaults `mode = 0`, `tff = 1`. -/
theorem claim_C10 (modeArg tffArg : Option Int) (srcVi : VSVideoInfo) :
    cudaDeintCreate none modeArg tffArg
      = Except.error "CudaDeinterlacer: clip is required."
    ∧ (cudaDeintCreate (some srcVi) none none).isOk = true
    ∧ ((cudaDeintCreate (some srcVi) none none).toOption.map
        (fun d => (d.mode, d.tff))) = some (0, 1) := by
  refine ⟨rfl, ?_, ?_⟩ <;> rw [cudaDeintCreate] <;> rfl
